import Mathlib

/-!
Shallow embedding of `actions.py` (campus location resolver for a Rasa bot).

Strings are modelled as `List Char` (`Str`).  The non-ASCII string literals in
the repository file are stored mojibake-encoded (UTF-8 Cyrillic decoded as
mac-roman); the definitions below use their unique UTF-8 decoding — e.g.
"дотуур", "байр", "муис" — which also matches the examples in the module's own
docstring ("'X-р дотуур байр' -> num_dorm_X").

Python builtins are modelled explicitly: `pyStrip` (str.strip), `pyLowerChar`
(str.lower, on the alphabets this program handles: ASCII, Latin-1, Cyrillic
including Mongolian Ү/Ө), `pyStr` (str()), `quotePlus` (urllib.parse.quote_plus
over the UTF-8 bytes), and dict semantics as insertion-ordered association
lists.  Fallible Python code (AttributeError / TypeError) is modelled with an
explicit error component.
-/

abbrev Str := List Char

/-- Whitespace set of Python's str.strip and regex \s (ASCII controls,
NBSP, NEL, and the Unicode space separators). -/
def pyIsSpace (c : Char) : Bool :=
  c.toNat = 0x20 || (0x9 ≤ c.toNat && c.toNat ≤ 0xD) ||
  (0x1C ≤ c.toNat && c.toNat ≤ 0x1F) || c.toNat = 0x85 || c.toNat = 0xA0 ||
  c.toNat = 0x1680 || (0x2000 ≤ c.toNat && c.toNat ≤ 0x200A) ||
  c.toNat = 0x2028 || c.toNat = 0x2029 || c.toNat = 0x202F ||
  c.toNat = 0x205F || c.toNat = 0x3000

/-- Python str.lower() on one character, covering the alphabets this program
processes: ASCII, Latin-1, Cyrillic А-Я / Ѐ-Џ, Mongolian Cyrillic Ү and Ө. -/
def pyLowerChar (c : Char) : Char :=
  if 0x41 ≤ c.toNat ∧ c.toNat ≤ 0x5A then Char.ofNat (c.toNat + 32)
  else if 0xC0 ≤ c.toNat ∧ c.toNat ≤ 0xDE ∧ c.toNat ≠ 0xD7 then Char.ofNat (c.toNat + 32)
  else if 0x410 ≤ c.toNat ∧ c.toNat ≤ 0x42F then Char.ofNat (c.toNat + 32)
  else if 0x400 ≤ c.toNat ∧ c.toNat ≤ 0x40F then Char.ofNat (c.toNat + 80)
  else if c.toNat = 0x4AE then Char.ofNat 0x4AF
  else if c.toNat = 0x4E8 then Char.ofNat 0x4E9
  else c

/-- Python s.lower(). -/
def pyLower (s : Str) : Str := s.map pyLowerChar

/-- Python s.strip(). -/
def pyStrip (s : Str) : Str :=
  ((s.dropWhile pyIsSpace).reverse.dropWhile pyIsSpace).reverse

/-- Python substring test: needle in hay. -/
def isSub (needle hay : Str) : Bool :=
  hay.tails.any (fun t => needle.isPrefixOf t)

/-- Python dict lookup (d.get k): first matching key. -/
def dictGet (t : List (Str × Str)) (k : Str) : Option Str :=
  match t with
  | [] => none
  | (k', v) :: rest => if k' = k then some v else dictGet rest k

/-- Python dict assignment d[k] = v: replace in place, else append
(insertion order preserved). -/
def dictSet (t : List (Str × Str)) (k v : Str) : List (Str × Str) :=
  match t with
  | [] => [(k, v)]
  | (k', v') :: rest => if k' = k then (k, v) :: rest else (k', v') :: dictSet rest k v

/-- Values produced by yaml.safe_load, as far as this program consumes them. -/
inductive YamlVal where
  | nullV : YamlVal
  | boolV : Bool → YamlVal
  | intV : Int → YamlVal
  | strV : Str → YamlVal
  | listV : List YamlVal → YamlVal
  | mapV : List (Str × YamlVal) → YamlVal

/-- Python truthiness of a YAML value. -/
def truthy : YamlVal → Bool
  | .nullV => false
  | .boolV b => b
  | .intV n => n ≠ 0
  | .strV s => !s.isEmpty
  | .listV xs => !xs.isEmpty
  | .mapV kvs => !kvs.isEmpty

/-- YAML mapping lookup with a string key (d.get). -/
def yGet (kvs : List (Str × YamlVal)) (k : Str) : Option YamlVal :=
  match kvs with
  | [] => none
  | (k', v) :: rest => if k' = k then some v else yGet rest k

/-- Python exceptions that this code can raise. -/
inductive PyErr where
  | attributeError : PyErr
  | typeError : PyErr
deriving DecidableEq, Repr

mutual

/-- Python repr() of a YAML value (quoting of strings is modelled without
escape handling; the repo's configuration fields are scalars). -/
def pyRepr : YamlVal → Str
  | .nullV => "None".toList
  | .boolV true => "True".toList
  | .boolV false => "False".toList
  | .intV n => (toString n).toList
  | .strV s => Char.ofNat 39 :: s ++ [Char.ofNat 39]
  | .listV xs => Char.ofNat 91 :: pyReprList xs ++ [Char.ofNat 93]
  | .mapV kvs => Char.ofNat 123 :: pyReprMap kvs ++ [Char.ofNat 125]

/-- Comma-joined reprs of a list's elements. -/
def pyReprList : List YamlVal → Str
  | [] => []
  | [v] => pyRepr v
  | v :: vs => pyRepr v ++ ',' :: ' ' :: pyReprList vs

/-- Comma-joined reprs of a mapping's entries. -/
def pyReprMap : List (Str × YamlVal) → Str
  | [] => []
  | [(k, v)] => Char.ofNat 39 :: k ++ Char.ofNat 39 :: ':' :: ' ' :: pyRepr v
  | (k, v) :: rest =>
      Char.ofNat 39 :: k ++ Char.ofNat 39 :: ':' :: ' ' :: pyRepr v ++ ',' :: ' ' :: pyReprMap rest

end

/-- Python str() of a YAML value. -/
def pyStr : YamlVal → Str
  | .strV s => s
  | v => pyRepr v

/-- Python iteration (for x in v): lists yield elements, strings yield
one-character strings, mappings yield their keys; other truthy values are not
iterable (TypeError). -/
def pyIter : YamlVal → Except PyErr (List YamlVal)
  | .listV xs => .ok xs
  | .strV s => .ok (s.map (fun c => .strV [c]))
  | .mapV kvs => .ok (kvs.map (fun kv => .strV kv.1))
  | _ => .error .typeError

/-- Place dataclass of `actions.py`. -/
structure Place where
  key : Str
  title : Str
  query : Str
  aliases : List Str
  url : Option Str
deriving DecidableEq, Repr

/-- State of a LocationStore: the Python fields _places and _alias_to_key. -/
structure LocationStore where
  places : List Place
  alias_to_key : List (Str × Str)
deriving DecidableEq, Repr

/-- The store right after __init__ (or a reset load). -/
def emptyStore : LocationStore := ⟨[], []⟩

/-- Field extraction in load: str(item.get(name, "")).strip(). -/
def itemField (ikvs : List (Str × YamlVal)) (name : Str) : Str :=
  pyStrip (pyStr ((yGet ikvs name).getD (.strV [])))

/-- The key field of an entry. -/
def itemKey (ikvs : List (Str × YamlVal)) : Str := itemField ikvs "key".toList

/-- The title field of an entry. -/
def itemTitle (ikvs : List (Str × YamlVal)) : Str := itemField ikvs "title".toList

/-- The query field of an entry. -/
def itemQuery (ikvs : List (Str × YamlVal)) : Str := itemField ikvs "query".toList

/-- The aliases field of an entry after the falsy guard:
item.get("aliases") or []. -/
def itemAliasesVal (ikvs : List (Str × YamlVal)) : YamlVal :=
  let av := (yGet ikvs "aliases".toList).getD .nullV
  if truthy av then av else .listV []

/-- Validity check of load: if not (key and title and query): continue. -/
def itemValidB (ikvs : List (Str × YamlVal)) : Bool :=
  !(itemKey ikvs).isEmpty && !(itemTitle ikvs).isEmpty && !(itemQuery ikvs).isEmpty

/-- The url field of an entry: stripped, empty replaced by None
(url = str(item.get("url", "")).strip() or None). -/
def itemUrl (ikvs : List (Str × YamlVal)) : Option Str :=
  let url0 := itemField ikvs "url".toList
  if url0.isEmpty then none else some url0

/-- The alias-registration loop of load: for each raw alias value a,
a2 = str(a).strip().lower(); nonempty a2 is appended to aliases_clean and
mapped to the entry's key in the alias table. -/
def registerAliases (key : Str) (as_ : List YamlVal) (acc : List Str)
    (table : List (Str × Str)) : List Str × List (Str × Str) :=
  match as_ with
  | [] => (acc, table)
  | a :: rest =>
      let a2 := pyLower (pyStrip (pyStr a))
      if a2.isEmpty then registerAliases key rest acc table
      else registerAliases key rest (acc ++ [a2]) (dictSet table a2 key)

/-- Processing of one entry of the places list (the loop body of load):
extract the fields, skip the entry unless key, title and query are all
nonempty, register the cleaned aliases and the lowercased title, append the
Place.  Iterating a non-iterable aliases value raises. -/
def stepItem (ikvs : List (Str × YamlVal)) (st : LocationStore) :
    Except PyErr LocationStore :=
  if itemValidB ikvs then
    match pyIter (itemAliasesVal ikvs) with
    | .error e => .error e
    | .ok as_ =>
        let rg := registerAliases (itemKey ikvs) as_ [] st.alias_to_key
        let table2 := dictSet rg.2 (pyLower (itemTitle ikvs)) (itemKey ikvs)
        .ok ⟨st.places ++
              [⟨itemKey ikvs, itemTitle ikvs, itemQuery ikvs, rg.1, itemUrl ikvs⟩],
            table2⟩
  else .ok st

/-- The whole places loop.  A non-mapping entry raises AttributeError at
item.get; the store keeps the state reached before the raising entry. -/
def processItems : List YamlVal → LocationStore → LocationStore × Option PyErr
  | [], st => (st, none)
  | item :: rest, st =>
      match item with
      | .mapV ikvs =>
          match stepItem ikvs st with
          | .ok st' => processItems rest st'
          | .error e => (st, some e)
      | _ => (st, some .attributeError)

/-- The places value drawn from the document: data.get("places") or []. -/
def loadPlacesVal (kvs : List (Str × YamlVal)) : YamlVal :=
  let pv := (yGet kvs "places".toList).getD .nullV
  if truthy pv then pv else .listV []

/-- LocationStore.load applied to a parsed YAML document:
data = yaml.safe_load(f) or {}; iterate (data.get("places") or []).
A truthy non-mapping document raises AttributeError at data.get; a truthy
non-list places value raises when iterated (or at the first item.get). -/
def loadData (d : YamlVal) : LocationStore × Option PyErr :=
  match (if truthy d then d else .mapV []) with
  | .mapV kvs =>
      match pyIter (loadPlacesVal kvs) with
      | .ok xs => processItems xs emptyStore
      | .error e => (emptyStore, some e)
  | _ => (emptyStore, some .attributeError)

/-- LocationStore.load on the file as a whole: none models an absent file
(os.path.exists false), which leaves the store empty without error. -/
def loadFile : Option YamlVal → LocationStore × Option PyErr
  | none => (emptyStore, none)
  | some d => loadData d

/-- LocationStore.list_titles. -/
def list_titles (st : LocationStore) : List Str := st.places.map (fun p => p.title)

/-- LocationStore._get_by_key: first place with the given key. -/
def get_by_key (st : LocationStore) (k : Str) : Option Place :=
  st.places.find? (fun p => p.key = k)

/-- Dormitory keyword test of resolve step 2. -/
def hasDormKw (t : Str) : Bool :=
  isSub "дотуур".toList t || isSub "dorm".toList t || isSub "dormitory".toList t

/-- Search for the regex (^|\D)n(\D|$): some position holds the digit n with a
non-digit (or the string boundary) on both sides. -/
def boundedDigitAux (n : Char) (prev : Option Char) : Str → Bool
  | [] => false
  | c :: rest =>
      (c = n && (match prev with | none => true | some p => !p.isDigit)
        && (match rest with | [] => true | d :: _ => !d.isDigit))
      || boundedDigitAux n (some c) rest

/-- Search for (^|\D)n(\D|$) in t. -/
def boundedDigit (n : Char) (t : Str) : Bool := boundedDigitAux n none t

/-- Digit test of the dormitory loop: the bounded regex search or a bare
substring occurrence (n in t). -/
def dormHit (n : Char) (t : Str) : Bool := boundedDigit n t || t.contains n

/-- The fixed scan order of the dormitory loop. -/
def dormDigits : List Char := ['1', '2', '3', '4', '5', '6']

/-- First digit of 1..6 hitting in t, in that fixed order. -/
def firstDormDigit (t : Str) : Option Char := dormDigits.find? (fun n => dormHit n t)

/-- Whitespace skip for the regex pieces \s* (greedy; exact here since no
following literal begins with whitespace). -/
def skipWs (s : Str) : Str := s.dropWhile pyIsSpace

/-- Tail of the building regex: \s* байр. -/
def bairAfterWs (s : Str) : Bool := "байр".toList.isPrefixOf (skipWs s)

/-- Separator group of the building regex: (р|р\.|дугаар)? followed by
\s*байр, with all alternatives (including the empty one) tried. -/
def afterSep (s : Str) : Bool :=
  (match s with | 'р' :: s1 => bairAfterWs s1 | _ => false)
  || (match s with | 'р' :: '.' :: s2 => bairAfterWs s2 | _ => false)
  || ("дугаар".toList.isPrefixOf s && bairAfterWs (s.drop 6))
  || bairAfterWs s

/-- Rest of the building regex after the digit: \s*[-–]?\s* then the
separator group, with the optional dash both taken and skipped. -/
def afterDigit (s : Str) : Bool :=
  let s1 := skipWs s
  (match s1 with
   | '-' :: s2 => afterSep (skipWs s2)
   | '–' :: s2 => afterSep (skipWs s2)
   | _ => false)
  || afterSep s1

/-- re.search of ([1-5])\s*[-–]?\s*(р|р\.|дугаар)?\s*байр: leftmost position
where the pattern matches, returning the captured digit. -/
def buildingSearch : Str → Option Char
  | [] => none
  | c :: rest =>
      if ['1', '2', '3', '4', '5'].contains c && afterDigit rest then some c
      else buildingSearch rest

/-- Institution keyword test of resolve step 4. -/
def hasMuisKw (t : Str) : Bool :=
  isSub "муис".toList t || isSub "muis".toList t || isSub "num".toList t

/-- Steps 3 and 4 of resolve: the building regex, then the institution
keywords, then none. -/
def resolveStep34 (st : LocationStore) (t : Str) : Option Place :=
  match buildingSearch t with
  | some n => get_by_key st ("num_building_".toList ++ [n])
  | none => if hasMuisKw t then get_by_key st "num_main".toList else none

/-- Steps 2-4 of resolve (after the exact-alias lookup has not returned):
when a dormitory keyword is present and some digit 1-6 hits, the scan loop
returns that dormitory key's place immediately; otherwise control falls
through to the building and institution steps. -/
def resolveTail (st : LocationStore) (t : Str) : Option Place :=
  if hasDormKw t then
    match firstDormDigit t with
    | some n => get_by_key st ("num_dorm_".toList ++ [n])
    | none => resolveStep34 st t
  else resolveStep34 st t

/-- LocationStore.resolve: normalize (strip + lower), return none on empty
input, then the cascade: exact alias lookup (a truthy key returns its place),
dormitory pattern, building pattern, institution keyword, none. -/
def resolve (st : LocationStore) (text : Str) : Option Place :=
  let t := pyLower (pyStrip text)
  if t.isEmpty then none
  else
    match dictGet st.alias_to_key t with
    | some k => if k.isEmpty then resolveTail st t else get_by_key st k
    | none => resolveTail st t

/-- UTF-8 bytes of one character. -/
def utf8Bytes (c : Char) : List Nat :=
  let n := c.toNat
  if n < 0x80 then [n]
  else if n < 0x800 then [0xC0 + n / 0x40, 0x80 + n % 0x40]
  else if n < 0x10000 then
    [0xE0 + n / 0x1000, 0x80 + (n / 0x40) % 0x40, 0x80 + n % 0x40]
  else
    [0xF0 + n / 0x40000, 0x80 + (n / 0x1000) % 0x40,
     0x80 + (n / 0x40) % 0x40, 0x80 + n % 0x40]

/-- Uppercase hex digit. -/
def hexDigit (n : Nat) : Char :=
  if n < 10 then Char.ofNat (48 + n) else Char.ofNat (55 + n)

/-- Percent-encoding of one byte, uppercase hex. -/
def pctEncByte (b : Nat) : Str := ['%', hexDigit (b / 16), hexDigit (b % 16)]

/-- Characters quote_plus leaves as-is (ASCII letters, digits, _.-~). -/
def isUrlSafe (c : Char) : Bool :=
  c.isAlpha || c.isDigit || c = '_' || c = '.' || c = '-' || c = '~'

/-- urllib.parse.quote_plus: spaces become +, safe characters stay, every
other character is percent-encoded byte-wise over its UTF-8 encoding. -/
def quotePlus (s : Str) : Str :=
  s.flatMap (fun c =>
    if c = ' ' then ['+']
    else if isUrlSafe c then [c]
    else (utf8Bytes c).flatMap pctEncByte)

/-- google_maps_search_url of `actions.py`. -/
def google_maps_search_url (query : Str) : Str :=
  "https://www.google.com/maps?q=".toList ++ quotePlus query

/-- URL choice of ActionSendLocation.run line 157:
url = place.url or google_maps_search_url(place.query). -/
def replyUrl (p : Place) : Str :=
  match p.url with
  | some u => if u.isEmpty then google_maps_search_url p.query else u
  | none => google_maps_search_url p.query

/-- Normalization applied to each raw alias value: str(a).strip().lower(). -/
def cleanAlias (a : YamlVal) : Str := pyLower (pyStrip (pyStr a))

/-- The nonempty cleaned alias strings of a raw alias list, in order. -/
def aliasNames (as_ : List YamlVal) : List Str :=
  (as_.map cleanAlias).filter (fun s => !s.isEmpty)

/-- All strings an entry maps in the alias table when it is processed:
its nonempty cleaned aliases followed by its lowercased title. -/
def itemNames (ikvs : List (Str × YamlVal)) : List Str :=
  match pyIter (itemAliasesVal ikvs) with
  | .ok as_ => aliasNames as_ ++ [pyLower (itemTitle ikvs)]
  | .error _ => []

/-- An entry of the places list registers the string a: it is a mapping,
passes the validity check, and a is among the strings it maps. -/
def registersB (item : YamlVal) (a : Str) : Bool :=
  match item with
  | .mapV ikvs => itemValidB ikvs && (itemNames ikvs).contains a
  | _ => false

/-- Shape of every place retained by load: key, title and query nonempty,
every stored alias nonempty, url absent or nonempty. -/
def validPlace (p : Place) : Prop :=
  p.key ≠ [] ∧ p.title ≠ [] ∧ p.query ≠ [] ∧ (∀ al ∈ p.aliases, al ≠ []) ∧
  p.url ≠ some []

/-- Store invariant maintained by load: places are valid, and every alias
table entry has a nonempty alias, a nonempty key, and a place carrying it. -/
def storeInv (st : LocationStore) : Prop :=
  (∀ p ∈ st.places, validPlace p) ∧
  (∀ ak ∈ st.alias_to_key, ak.1 ≠ [] ∧ ak.2 ≠ [] ∧ ∃ p ∈ st.places, p.key = ak.2)

/-- The exact-alias strategy produces no match on t: no table entry, or a
falsy (empty) key, in which case resolve falls through. -/
def aliasMissB (st : LocationStore) (t : Str) : Bool :=
  match dictGet st.alias_to_key t with
  | none => true
  | some k => k.isEmpty

/-- Sample configuration used by concrete witnesses: two dormitories, one
building with an alias and an explicit url, and the main campus entry. -/
def cfgS : YamlVal := .mapV [("places".toList, .listV [
  .mapV [("key".toList, .strV "num_dorm_1".toList),
         ("title".toList, .strV "Dorm One".toList),
         ("query".toList, .strV "NUM dormitory 1".toList)],
  .mapV [("key".toList, .strV "num_dorm_4".toList),
         ("title".toList, .strV "Dorm Four".toList),
         ("query".toList, .strV "NUM dormitory 4".toList)],
  .mapV [("key".toList, .strV "num_building_2".toList),
         ("title".toList, .strV "Building Two".toList),
         ("query".toList, .strV "NUM building 2".toList),
         ("aliases".toList, .listV [.strV " LIB ".toList]),
         ("url".toList, .strV "https://maps.app.goo.gl/x2".toList)],
  .mapV [("key".toList, .strV "num_main".toList),
         ("title".toList, .strV "MUIS Main".toList),
         ("query".toList, .strV "МУИС төв байр".toList)]])]

/-- The store loaded from the sample configuration. -/
def stS : LocationStore := (loadFile (some cfgS)).1

/-- The loaded num_dorm_1 place of the sample configuration. -/
def placeDorm1 : Place :=
  ⟨"num_dorm_1".toList, "Dorm One".toList, "NUM dormitory 1".toList, [], none⟩

/-- The loaded num_dorm_4 place of the sample configuration. -/
def placeDorm4 : Place :=
  ⟨"num_dorm_4".toList, "Dorm Four".toList, "NUM dormitory 4".toList, [], none⟩

/-- The loaded num_building_2 place of the sample configuration. -/
def placeBldg2 : Place :=
  ⟨"num_building_2".toList, "Building Two".toList, "NUM building 2".toList,
   ["lib".toList], some "https://maps.app.goo.gl/x2".toList⟩

/-- The loaded num_main place of the sample configuration. -/
def placeMain : Place :=
  ⟨"num_main".toList, "MUIS Main".toList, "МУИС төв байр".toList, [], none⟩

/-- First entry of the duplicate-alias configuration. -/
def dupItem1 : List (Str × YamlVal) :=
  [("key".toList, .strV "k1".toList), ("title".toList, .strV "T1".toList),
   ("query".toList, .strV "q1".toList),
   ("aliases".toList, .listV [.strV "x".toList])]

/-- Second entry of the duplicate-alias configuration: same alias "x". -/
def dupItem2 : List (Str × YamlVal) :=
  [("key".toList, .strV "k2".toList), ("title".toList, .strV "T2".toList),
   ("query".toList, .strV "q2".toList),
   ("aliases".toList, .listV [.strV "x".toList])]

/-- Configuration with the same alias "x" in two entries. -/
def cfgDup : YamlVal :=
  .mapV [("places".toList, .listV [.mapV dupItem1, .mapV dupItem2])]

/-- Configuration whose only entry is invalid (no key), so that load retains
zero records. -/
def cfgAllInvalid : YamlVal :=
  .mapV [("places".toList, .listV [.mapV [("title".toList, .strV "T".toList)]])]

theorem dictGet_dictSet (t : List (Str × Str)) (k v x : Str) :
    dictGet (dictSet t k v) x = if x = k then some v else dictGet t x := by
  induction t with
  | nil =>
      rcases eq_or_ne x k with h | h <;>
        simp [dictSet, dictGet, h, Ne.symm]
  | cons kv rest ih =>
      rcases kv with ⟨k', v'⟩
      by_cases h1 : k' = k <;> by_cases h2 : k' = x <;>
        simp_all [dictSet, dictGet, ih, Ne.symm]

theorem dictSet_mem {t : List (Str × Str)} {k v : Str} {ak : Str × Str}
    (h : ak ∈ dictSet t k v) : ak = (k, v) ∨ ak ∈ t := by
  induction t with
  | nil => simpa [dictSet] using h
  | cons kv rest ih =>
      rcases kv with ⟨k', v'⟩
      by_cases h1 : k' = k
      · simp only [dictSet, if_pos h1, List.mem_cons] at h
        rcases h with h | h
        · exact Or.inl h
        · exact Or.inr (List.mem_cons_of_mem _ h)
      · simp only [dictSet, if_neg h1, List.mem_cons] at h
        rcases h with h | h
        · exact Or.inr (by simp [h])
        · rcases ih h with h2 | h2
          · exact Or.inl h2
          · exact Or.inr (List.mem_cons_of_mem _ h2)

theorem dictGet_mem {t : List (Str × Str)} {k v : Str}
    (h : dictGet t k = some v) : (k, v) ∈ t := by
  induction t with
  | nil => simp [dictGet] at h
  | cons kv rest ih =>
      rcases kv with ⟨k', v'⟩
      by_cases h1 : k' = k
      · simp only [dictGet, if_pos h1] at h
        subst h1
        simp [← Option.some_inj.mp h]
      · simp only [dictGet, if_neg h1] at h
        exact List.mem_cons_of_mem _ (ih h)

theorem registerAliases_cons_skip {key : Str} {a : YamlVal} (rest : List YamlVal)
    (acc : List Str) (table : List (Str × Str))
    (h : (pyLower (pyStrip (pyStr a))).isEmpty = true) :
    registerAliases key (a :: rest) acc table = registerAliases key rest acc table := by
  simp [registerAliases, h]

theorem registerAliases_cons_take {key : Str} {a : YamlVal} (rest : List YamlVal)
    (acc : List Str) (table : List (Str × Str))
    (h : (pyLower (pyStrip (pyStr a))).isEmpty = false) :
    registerAliases key (a :: rest) acc table =
      registerAliases key rest (acc ++ [pyLower (pyStrip (pyStr a))])
        (dictSet table (pyLower (pyStrip (pyStr a))) key) := by
  simp [registerAliases, h]

theorem aliasNames_cons_skip {a : YamlVal} (rest : List YamlVal)
    (h : (pyLower (pyStrip (pyStr a))).isEmpty = true) :
    aliasNames (a :: rest) = aliasNames rest := by
  simp [aliasNames, cleanAlias, List.filter_cons, h]

theorem aliasNames_cons_take {a : YamlVal} (rest : List YamlVal)
    (h : (pyLower (pyStrip (pyStr a))).isEmpty = false) :
    aliasNames (a :: rest) = pyLower (pyStrip (pyStr a)) :: aliasNames rest := by
  simp [aliasNames, cleanAlias, List.filter_cons, h]

theorem registerAliases_acc (key : Str) (as_ : List YamlVal) (acc : List Str)
    (table : List (Str × Str)) :
    (registerAliases key as_ acc table).1 = acc ++ aliasNames as_ := by
  induction as_ generalizing acc table with
  | nil => simp [registerAliases, aliasNames]
  | cons a rest ih =>
      by_cases h : (pyLower (pyStrip (pyStr a))).isEmpty
      · rw [registerAliases_cons_skip rest acc table h, ih,
          aliasNames_cons_skip rest h]
      · rw [Bool.not_eq_true] at h
        rw [registerAliases_cons_take rest acc table h, ih,
          aliasNames_cons_take rest h]
        simp

theorem registerAliases_get (key : Str) (as_ : List YamlVal) (acc : List Str)
    (table : List (Str × Str)) (a : Str) :
    dictGet (registerAliases key as_ acc table).2 a =
      if a ∈ aliasNames as_ then some key else dictGet table a := by
  induction as_ generalizing acc table with
  | nil => simp [registerAliases, aliasNames]
  | cons x rest ih =>
      by_cases h : (pyLower (pyStrip (pyStr x))).isEmpty
      · rw [registerAliases_cons_skip rest acc table h, ih,
          aliasNames_cons_skip rest h]
      · rw [Bool.not_eq_true] at h
        rw [registerAliases_cons_take rest acc table h, ih,
          aliasNames_cons_take rest h, dictGet_dictSet]
        rcases eq_or_ne a (pyLower (pyStrip (pyStr x))) with h2 | h2
        · simp [h2]
        · by_cases h3 : a ∈ aliasNames rest <;> simp [h2, h3]

theorem registerAliases_table_mem {key : Str} {as_ : List YamlVal}
    {acc : List Str} {table : List (Str × Str)} {ak : Str × Str}
    (h : ak ∈ (registerAliases key as_ acc table).2) :
    ak ∈ table ∨ (ak.2 = key ∧ ak.1 ≠ []) := by
  induction as_ generalizing acc table with
  | nil => exact Or.inl (by simpa [registerAliases] using h)
  | cons x rest ih =>
      by_cases h1 : (pyLower (pyStrip (pyStr x))).isEmpty
      · rw [registerAliases_cons_skip rest acc table h1] at h
        exact ih h
      · rw [Bool.not_eq_true] at h1
        rw [registerAliases_cons_take rest acc table h1] at h
        rcases ih h with h2 | h2
        · rcases dictSet_mem h2 with h3 | h3
          · refine Or.inr ?_
            subst h3
            exact ⟨rfl, by simpa [List.isEmpty_iff] using h1⟩
          · exact Or.inl h3
        · exact Or.inr h2

theorem pyLower_eq_nil {s : Str} : pyLower s = [] ↔ s = [] := by
  simp [pyLower]

theorem stepItem_invalid {ikvs : List (Str × YamlVal)} (st : LocationStore)
    (h : itemValidB ikvs = false) : stepItem ikvs st = .ok st := by
  simp [stepItem, h]

theorem stepItem_valid {ikvs : List (Str × YamlVal)} (st : LocationStore)
    {as_ : List YamlVal} (hv : itemValidB ikvs = true)
    (ha : pyIter (itemAliasesVal ikvs) = .ok as_) :
    stepItem ikvs st =
      .ok ⟨st.places ++
            [⟨itemKey ikvs, itemTitle ikvs, itemQuery ikvs, aliasNames as_,
              itemUrl ikvs⟩],
          dictSet (registerAliases (itemKey ikvs) as_ [] st.alias_to_key).2
            (pyLower (itemTitle ikvs)) (itemKey ikvs)⟩ := by
  simp [stepItem, hv, ha, registerAliases_acc]

theorem stepItem_error {ikvs : List (Str × YamlVal)} {st : LocationStore}
    {e : PyErr} (h : stepItem ikvs st = .error e) :
    itemValidB ikvs = true ∧ pyIter (itemAliasesVal ikvs) = .error e := by
  by_cases hv : itemValidB ikvs
  · refine ⟨hv, ?_⟩
    cases ha : pyIter (itemAliasesVal ikvs) with
    | ok as_ => rw [stepItem_valid st hv ha] at h; cases h
    | error e' =>
        simp only [stepItem, hv, if_true, ha] at h
        cases h
        rfl
  · rw [Bool.not_eq_true] at hv
    rw [stepItem_invalid st hv] at h
    cases h

theorem stepItem_get {ikvs : List (Str × YamlVal)} {st st' : LocationStore}
    (hv : itemValidB ikvs = true) (h : stepItem ikvs st = .ok st') (a : Str) :
    dictGet st'.alias_to_key a =
      if a ∈ itemNames ikvs then some (itemKey ikvs)
      else dictGet st.alias_to_key a := by
  cases ha : pyIter (itemAliasesVal ikvs) with
  | error e => simp only [stepItem, hv, if_true, ha] at h; cases h
  | ok as_ =>
      rw [stepItem_valid st hv ha] at h
      cases h
      simp only [itemNames, ha, dictGet_dictSet, registerAliases_get,
        List.mem_append, List.mem_singleton]
      rcases eq_or_ne a (pyLower (itemTitle ikvs)) with h1 | h1
      · simp [h1]
      · by_cases h2 : a ∈ aliasNames as_ <;> simp [h1, h2]

theorem stepItem_preserve {ikvs : List (Str × YamlVal)} {st st' : LocationStore}
    (h : stepItem ikvs st = .ok st')
    {a : Str} (hr : registersB (.mapV ikvs) a = false) :
    dictGet st'.alias_to_key a = dictGet st.alias_to_key a := by
  by_cases hv : itemValidB ikvs
  · rw [stepItem_get hv h a]
    simp only [registersB, hv, Bool.true_and] at hr
    rw [if_neg (by simpa using hr)]
  · rw [Bool.not_eq_true] at hv
    rw [stepItem_invalid st hv] at h
    cases h
    rfl

theorem stepItem_registers {ikvs : List (Str × YamlVal)} {st st' : LocationStore}
    (h : stepItem ikvs st = .ok st')
    {a : Str} (hr : registersB (.mapV ikvs) a = true) :
    dictGet st'.alias_to_key a = some (itemKey ikvs) := by
  simp only [registersB, Bool.and_eq_true] at hr
  rw [stepItem_get hr.1 h a, if_pos (by simpa using hr.2)]

theorem storeInv_empty : storeInv emptyStore := by
  constructor <;> simp [emptyStore]

theorem isEmpty_eq_false_iff {α : Type} {l : List α} :
    l.isEmpty = false ↔ l ≠ [] := by
  cases l <;> simp

theorem stepItem_inv {ikvs : List (Str × YamlVal)} {st st' : LocationStore}
    (hinv : storeInv st) (h : stepItem ikvs st = .ok st') : storeInv st' := by
  by_cases hv : itemValidB ikvs
  · cases ha : pyIter (itemAliasesVal ikvs) with
    | error e => simp only [stepItem, hv, if_true, ha] at h; cases h
    | ok as_ =>
        rw [stepItem_valid st hv ha] at h
        cases h
        simp only [itemValidB, Bool.and_eq_true] at hv
        have hk : itemKey ikvs ≠ [] := by
          simpa [isEmpty_eq_false_iff] using hv.1.1
        have hti : itemTitle ikvs ≠ [] := by
          simpa [isEmpty_eq_false_iff] using hv.1.2
        have hq : itemQuery ikvs ≠ [] := by
          simpa [isEmpty_eq_false_iff] using hv.2
        constructor
        · intro p hp
          simp only [List.mem_append, List.mem_singleton] at hp
          rcases hp with hp | hp
          · exact hinv.1 p hp
          · subst hp
            refine ⟨hk, hti, hq, ?_, ?_⟩
            · intro al hal
              simp only [aliasNames, List.mem_filter] at hal
              simpa [List.isEmpty_iff] using hal.2
            · simp only [itemUrl]
              split
              · simp
              · next hu =>
                  intro hcon
                  rw [Option.some_inj.mp hcon] at hu
                  simp at hu
        · intro ak hak
          simp only at hak
          rcases dictSet_mem hak with h1 | h1
          · subst h1
            refine ⟨?_, hk, ?_⟩
            · simpa [pyLower_eq_nil] using hti
            · refine ⟨⟨itemKey ikvs, itemTitle ikvs, itemQuery ikvs,
                aliasNames as_, itemUrl ikvs⟩, ?_, rfl⟩
              simp
          · rcases registerAliases_table_mem h1 with h2 | h2
            · obtain ⟨hne1, hne2, p, hp, hkey⟩ := hinv.2 ak h2
              exact ⟨hne1, hne2, p, by simp [hp], hkey⟩
            · refine ⟨h2.2, h2.1 ▸ hk, ?_⟩
              refine ⟨⟨itemKey ikvs, itemTitle ikvs, itemQuery ikvs,
                aliasNames as_, itemUrl ikvs⟩, ?_, h2.1.symm⟩
              simp
  · rw [Bool.not_eq_true] at hv
    rw [stepItem_invalid st hv] at h
    cases h
    exact hinv

theorem processItems_inv {xs : List YamlVal} {st : LocationStore}
    (hinv : storeInv st) : storeInv (processItems xs st).1 := by
  induction xs generalizing st with
  | nil => simpa [processItems]
  | cons item rest ih =>
      cases item with
      | mapV ikvs =>
          cases h : stepItem ikvs st with
          | ok st' => simpa [processItems, h] using ih (stepItem_inv hinv h)
          | error e => simpa [processItems, h]
      | nullV => simpa [processItems]
      | boolV b => simpa [processItems]
      | intV n => simpa [processItems]
      | strV s => simpa [processItems]
      | listV xs => simpa [processItems]

theorem processItems_append (ys zs : List YamlVal) (st : LocationStore) :
    processItems (ys ++ zs) st =
      match processItems ys st with
      | (st1, none) => processItems zs st1
      | (st1, some e) => (st1, some e) := by
  induction ys generalizing st with
  | nil => simp [processItems]
  | cons item rest ih =>
      cases item with
      | mapV ikvs =>
          cases h : stepItem ikvs st with
          | ok st' => simp [processItems, h, ih]
          | error e => simp [processItems, h]
      | nullV => simp [processItems]
      | boolV b => simp [processItems]
      | intV n => simp [processItems]
      | strV s => simp [processItems]
      | listV xs => simp [processItems]

theorem processItems_preserve {zs : List YamlVal} {st : LocationStore} {a : Str}
    (hz : ∀ z ∈ zs, registersB z a = false) :
    dictGet (processItems zs st).1.alias_to_key a = dictGet st.alias_to_key a := by
  induction zs generalizing st with
  | nil => simp [processItems]
  | cons item rest ih =>
      cases item with
      | mapV ikvs =>
          cases h : stepItem ikvs st with
          | ok st' =>
              simp only [processItems, h]
              rw [ih (fun z hzz => hz z (List.mem_cons_of_mem _ hzz))]
              exact stepItem_preserve h (hz _ (List.mem_cons_self _ _))
          | error e => simp [processItems, h]
      | nullV => simp [processItems]
      | boolV b => simp [processItems]
      | intV n => simp [processItems]
      | strV s => simp [processItems]
      | listV xs => simp [processItems]

theorem processItems_append_ok {ys : List YamlVal} (zs : List YamlVal)
    {st st1 : LocationStore} (h : processItems ys st = (st1, none)) :
    processItems (ys ++ zs) st = processItems zs st1 := by
  rw [processItems_append, h]

theorem processItems_append_err {ys : List YamlVal} (zs : List YamlVal)
    {st st1 : LocationStore} {e : PyErr}
    (h : processItems ys st = (st1, some e)) :
    processItems (ys ++ zs) st = (st1, some e) := by
  rw [processItems_append, h]

theorem loadData_inv (d : YamlVal) : storeInv (loadData d).1 := by
  unfold loadData
  split
  · split
    · exact processItems_inv storeInv_empty
    · exact storeInv_empty
  · exact storeInv_empty

theorem loadFile_inv (input : Option YamlVal) : storeInv (loadFile input).1 := by
  cases input with
  | none => exact storeInv_empty
  | some d => exact loadData_inv d

theorem resolve_blank (st : LocationStore) (text : Str)
    (h : pyLower (pyStrip text) = []) : resolve st text = none := by
  simp [resolve, h]

theorem resolve_alias_hit (st : LocationStore) (text : Str) (k : Str)
    (ht : pyLower (pyStrip text) ≠ [])
    (hk : dictGet st.alias_to_key (pyLower (pyStrip text)) = some k)
    (hk2 : k ≠ []) : resolve st text = get_by_key st k := by
  simp only [resolve, hk]
  rw [if_neg (by simp [ht]), if_neg (by simp [hk2])]

theorem resolve_alias_miss (st : LocationStore) (text : Str)
    (ht : pyLower (pyStrip text) ≠ [])
    (hm : aliasMissB st (pyLower (pyStrip text)) = true) :
    resolve st text = resolveTail st (pyLower (pyStrip text)) := by
  simp only [resolve]
  rw [if_neg (by simp [ht])]
  simp only [aliasMissB] at hm
  cases hk : dictGet st.alias_to_key (pyLower (pyStrip text)) with
  | none => rfl
  | some k =>
      rw [hk] at hm
      simp only at hm
      have hknil : k = [] := by simpa [List.isEmpty_iff] using hm
      simp [hknil]

theorem resolveTail_dorm (st : LocationStore) (t : Str) (n : Char)
    (hkw : hasDormKw t = true) (hd : firstDormDigit t = some n) :
    resolveTail st t = get_by_key st ("num_dorm_".toList ++ [n]) := by
  simp [resolveTail, hkw, hd]

theorem resolveTail_nodorm (st : LocationStore) (t : Str)
    (h : hasDormKw t = false ∨ firstDormDigit t = none) :
    resolveTail st t = resolveStep34 st t := by
  rcases h with h | h
  · simp [resolveTail, h]
  · by_cases hkw : hasDormKw t <;> simp [resolveTail, hkw, h]

theorem hasDormKw_ne_nil {t : Str} (h : hasDormKw t = true) : t ≠ [] := by
  intro hnil
  subst hnil
  simp [hasDormKw, isSub] at h

theorem firstDormDigit_first {t : Str} {n : Char} (hn : n ∈ dormDigits)
    (hhit : dormHit n t = true)
    (hfirst : ∀ m ∈ dormDigits, m < n → dormHit m t = false) :
    firstDormDigit t = some n := by
  simp only [dormDigits, List.mem_cons, List.not_mem_nil, or_false] at hn
  rcases hn with rfl | rfl | rfl | rfl | rfl | rfl <;>
    simp only [firstDormDigit, dormDigits, List.find?, hhit]
  · rw [hfirst '1' (by simp [dormDigits]) (by decide)]
  · rw [hfirst '1' (by simp [dormDigits]) (by decide),
      hfirst '2' (by simp [dormDigits]) (by decide)]
  · rw [hfirst '1' (by simp [dormDigits]) (by decide),
      hfirst '2' (by simp [dormDigits]) (by decide),
      hfirst '3' (by simp [dormDigits]) (by decide)]
  · rw [hfirst '1' (by simp [dormDigits]) (by decide),
      hfirst '2' (by simp [dormDigits]) (by decide),
      hfirst '3' (by simp [dormDigits]) (by decide),
      hfirst '4' (by simp [dormDigits]) (by decide)]
  · rw [hfirst '1' (by simp [dormDigits]) (by decide),
      hfirst '2' (by simp [dormDigits]) (by decide),
      hfirst '3' (by simp [dormDigits]) (by decide),
      hfirst '4' (by simp [dormDigits]) (by decide),
      hfirst '5' (by simp [dormDigits]) (by decide)]

theorem get_by_key_isSome {st : LocationStore} {k : Str}
    (h : ∃ p ∈ st.places, p.key = k) : (get_by_key st k).isSome := by
  obtain ⟨p, hp, hkey⟩ := h
  simp only [get_by_key]
  rw [List.find?_isSome]
  exact ⟨p, hp, by simp [hkey]⟩

theorem resolve_empty_store (st : LocationStore) (hp : st.places = [])
    (ht : st.alias_to_key = []) (text : Str) : resolve st text = none := by
  have h34 : resolveStep34 st (pyLower (pyStrip text)) = none := by
    unfold resolveStep34
    cases hb : buildingSearch (pyLower (pyStrip text)) with
    | some n => simp [get_by_key, hp]
    | none =>
        by_cases hmu : hasMuisKw (pyLower (pyStrip text)) <;>
          simp [hmu, get_by_key, hp]
  by_cases hblank : pyLower (pyStrip text) = []
  · exact resolve_blank st text hblank
  · rw [resolve_alias_miss st text hblank (by simp [aliasMissB, ht, dictGet])]
    unfold resolveTail
    by_cases hkw : hasDormKw (pyLower (pyStrip text))
    · cases hd : firstDormDigit (pyLower (pyStrip text)) with
      | some n => simp [hkw, hd, get_by_key, hp]
      | none => simp [hkw, hd, h34]
    · simp [hkw, h34]

/-- C1 (counterexample): a configuration whose top-level YAML document is a
truthy non-mapping — here the list ["a"] — is malformed in the claim's sense,
yet load() raises AttributeError at data.get("places") instead of resulting
in zero records without error. -/
theorem c1_counterexample :
    (loadData (.listV [.strV "a".toList])).2 = some PyErr.attributeError := by
  decide

/-- C1 (amended): a falsy top-level document (null/empty), or a mapping whose
"places" entry is missing or falsy, loads as zero records — empty place list
and empty alias table — without error; a truthy non-mapping top-level
document instead raises. -/
theorem c1_malformed_silent (d : YamlVal)
    (h : truthy d = false ∨
      ∃ kvs, d = .mapV kvs ∧
        truthy ((yGet kvs "places".toList).getD .nullV) = false) :
    loadData d = (emptyStore, none) := by
  rcases h with h | ⟨kvs, rfl, h⟩
  · unfold loadData
    rw [if_neg (by simp [h])]
    rfl
  · have h' : ¬ truthy ((yGet kvs "places".toList).getD .nullV) = true := by
      intro hc
      rw [hc] at h
      exact Bool.noConfusion h
    have hpv : loadPlacesVal kvs = .listV [] := by
      unfold loadPlacesVal
      rw [if_neg h']
    by_cases ht : truthy (.mapV kvs)
    · unfold loadData
      rw [if_pos ht]
      dsimp only
      rw [hpv]
      rfl
    · unfold loadData
      rw [if_neg ht]
      rfl

/-- C1 (witness): a mapping without a "places" entry loads as zero records
without error. -/
theorem c1_witness :
    loadData (.mapV [("other".toList, .strV "x".toList)]) = (emptyStore, none) :=
  c1_malformed_silent _ (Or.inr ⟨_, rfl, by decide⟩)

/-- C6 (confirmed): after loading a configuration that retains zero valid
entries (the place list is empty — in particular for an absent file),
list_titles() is empty and resolve returns none on every input text. -/
theorem c6_zero_entries (input : Option YamlVal)
    (h : (loadFile input).1.places = []) :
    list_titles (loadFile input).1 = [] ∧
    ∀ text, resolve (loadFile input).1 text = none := by
  have hinv := loadFile_inv input
  have htab : (loadFile input).1.alias_to_key = [] := by
    cases htb : (loadFile input).1.alias_to_key with
    | nil => rfl
    | cons ak rest =>
        obtain ⟨-, -, p, hp, -⟩ := hinv.2 ak (htb ▸ List.mem_cons_self ak rest)
        rw [h] at hp
        cases hp
  exact ⟨by simp [list_titles, h], fun text => resolve_empty_store _ h htab text⟩

/-- C6 (witness): a configuration whose only entry lacks a key loads with no
places; the title list is empty and a sample request resolves to none. -/
theorem c6_witness :
    list_titles (loadFile (some cfgAllInvalid)).1 = [] ∧
    resolve (loadFile (some cfgAllInvalid)).1 "МУИС".toList = none :=
  ⟨(c6_zero_entries (some cfgAllInvalid) (by decide)).1,
   (c6_zero_entries (some cfgAllInvalid) (by decide)).2 _⟩

/-- C7 (confirmed): when the exact-alias lookup misses and no dormitory
keyword is present, a building-pattern hit — the regex matching a digit 1-5,
an optional ordinal-style separator, and the building keyword — makes resolve
return the building place keyed by the matched digit. -/
theorem c7_building_pattern (st : LocationStore) (text : Str) (n : Char)
    (ht : pyLower (pyStrip text) ≠ [])
    (hmiss : aliasMissB st (pyLower (pyStrip text)) = true)
    (hdorm : hasDormKw (pyLower (pyStrip text)) = false)
    (hb : buildingSearch (pyLower (pyStrip text)) = some n) :
    resolve st text = get_by_key st ("num_building_".toList ++ [n]) := by
  rw [resolve_alias_miss st text ht hmiss,
    resolveTail_nodorm st _ (Or.inl hdorm)]
  simp [resolveStep34, hb]

/-- C7 (witness): resolve("2-р байр") on the sample store returns the place
keyed num_building_2. -/
theorem c7_witness : resolve stS "2-р байр".toList = some placeBldg2 :=
  (c7_building_pattern stS "2-р байр".toList '2' (by decide) (by decide)
    (by decide) (by decide)).trans (by decide)

/-- C8 (confirmed): for every place retained by load, the reply URL is the
place's own url verbatim when it has one, and otherwise the generated
https://www.google.com/maps?q= URL with the percent-encoded query. -/
theorem c8_reply_url (input : Option YamlVal) (p : Place)
    (hp : p ∈ (loadFile input).1.places) :
    (∀ u, p.url = some u → replyUrl p = u) ∧
    (p.url = none →
      replyUrl p = "https://www.google.com/maps?q=".toList ++ quotePlus p.query) := by
  have hv := (loadFile_inv input).1 p hp
  constructor
  · intro u hu
    have hne : u ≠ [] := by
      rintro rfl
      exact hv.2.2.2.2 hu
    simp [replyUrl, hu, List.isEmpty_iff, hne]
  · intro hu
    simp [replyUrl, hu, google_maps_search_url]

/-- C8 (witness): in the sample store the building place's explicit url is
used verbatim, and the main place without one gets the generated search URL
built from its query. -/
theorem c8_witness :
    replyUrl placeBldg2 = "https://maps.app.goo.gl/x2".toList ∧
    replyUrl placeMain =
      "https://www.google.com/maps?q=".toList ++ quotePlus "МУИС төв байр".toList :=
  ⟨(c8_reply_url (some cfgS) placeBldg2 (by decide)).1 _ rfl,
   (c8_reply_url (some cfgS) placeMain (by decide)).2 rfl⟩

/-- C9 (confirmed): input that is empty after trimming — so in particular ""
and "   " — resolves to none for every store, before any matching strategy
can apply. -/
theorem c9_blank_input (st : LocationStore) (text : Str)
    (h : pyStrip text = []) : resolve st text = none := by
  apply resolve_blank
  rw [h]
  rfl

/-- C9 (witness): resolve("") and resolve("   ") are both none on the sample
store. -/
theorem c9_witness :
    resolve stS "".toList = none ∧ resolve stS "   ".toList = none :=
  ⟨c9_blank_input stS "".toList (by decide),
   c9_blank_input stS "   ".toList (by decide)⟩

/-- C2 (counterexample): in the duplicate-alias configuration the first
entry's place carries the alias "x", yet resolve("x") returns the second
entry's place — the later registration overwrote the mapping — so resolve of
an alias does not always return the place that listed it. -/
theorem c2_counterexample :
    (⟨"k1".toList, "T1".toList, "q1".toList, ["x".toList], none⟩ : Place)
        ∈ (loadFile (some cfgDup)).1.places ∧
    "x".toList ∈
      (⟨"k1".toList, "T1".toList, "q1".toList, ["x".toList], none⟩ : Place).aliases ∧
    resolve (loadFile (some cfgDup)).1 "x".toList =
      some ⟨"k2".toList, "T2".toList, "q2".toList, ["x".toList], none⟩ ∧
    (⟨"k1".toList, "T1".toList, "q1".toList, ["x".toList], none⟩ : Place) ≠
      ⟨"k2".toList, "T2".toList, "q2".toList, ["x".toList], none⟩ := by
  decide

/-- C2 (amended): for a loaded place p and input text whose normalization
(lowercase, trimmed) is one of p's stored aliases or p's lowercased title,
resolve returns p — provided that normalization still maps to p's key in the
alias table (no later entry overwrote it) and p is the first loaded place
with its key. -/
theorem c2_alias_resolves (input : Option YamlVal) (text : Str) (p : Place)
    (hp : p ∈ (loadFile input).1.places)
    (ha : pyLower (pyStrip text) ∈ p.aliases ∨
      pyLower (pyStrip text) = pyLower p.title)
    (hlast : dictGet (loadFile input).1.alias_to_key
        (pyLower (pyStrip text)) = some p.key)
    (hfirst : get_by_key (loadFile input).1 p.key = some p) :
    resolve (loadFile input).1 text = some p := by
  have hv := (loadFile_inv input).1 p hp
  have ht : pyLower (pyStrip text) ≠ [] := by
    rcases ha with ha | ha
    · exact hv.2.2.2.1 _ ha
    · rw [ha]
      intro hc
      exact hv.2.1 (pyLower_eq_nil.mp hc)
  rw [resolve_alias_hit _ text p.key ht hlast hv.1, hfirst]

/-- C2 (witness): the alias " LIB " of the building place, queried as " Lib "
(different case, extra whitespace), resolves to that place. -/
theorem c2_witness : resolve stS " Lib ".toList = some placeBldg2 :=
  c2_alias_resolves (some cfgS) " Lib ".toList placeBldg2 (by decide)
    (Or.inl (by decide)) (by decide) (by decide)

/-- C3 (confirmed): resolve is an ordered first-match cascade.  The dormitory
digit test is the bounded-digit regex or a bare substring hit; a truthy exact
alias hit returns immediately; with a dormitory keyword, the first digit of
1,2,3,4,5,6 in that fixed scan order picks num_dorm_<n>; with no dormitory
match the building regex picks num_building_<n>; then the institution
keywords pick num_main; otherwise resolve is none. -/
theorem c3_cascade (st : LocationStore) (text : Str) :
    (∀ n, dormHit n (pyLower (pyStrip text)) =
        (boundedDigit n (pyLower (pyStrip text)) ||
          (pyLower (pyStrip text)).contains n)) ∧
    (∀ k, pyLower (pyStrip text) ≠ [] →
        dictGet st.alias_to_key (pyLower (pyStrip text)) = some k → k ≠ [] →
        resolve st text = get_by_key st k) ∧
    (∀ n, pyLower (pyStrip text) ≠ [] →
        aliasMissB st (pyLower (pyStrip text)) = true →
        hasDormKw (pyLower (pyStrip text)) = true →
        n ∈ dormDigits → dormHit n (pyLower (pyStrip text)) = true →
        (∀ m ∈ dormDigits, m < n → dormHit m (pyLower (pyStrip text)) = false) →
        resolve st text = get_by_key st ("num_dorm_".toList ++ [n])) ∧
    (∀ n, pyLower (pyStrip text) ≠ [] →
        aliasMissB st (pyLower (pyStrip text)) = true →
        (hasDormKw (pyLower (pyStrip text)) = false ∨
          firstDormDigit (pyLower (pyStrip text)) = none) →
        buildingSearch (pyLower (pyStrip text)) = some n →
        resolve st text = get_by_key st ("num_building_".toList ++ [n])) ∧
    (pyLower (pyStrip text) ≠ [] →
        aliasMissB st (pyLower (pyStrip text)) = true →
        (hasDormKw (pyLower (pyStrip text)) = false ∨
          firstDormDigit (pyLower (pyStrip text)) = none) →
        buildingSearch (pyLower (pyStrip text)) = none →
        (hasMuisKw (pyLower (pyStrip text)) = true →
          resolve st text = get_by_key st "num_main".toList) ∧
        (hasMuisKw (pyLower (pyStrip text)) = false → resolve st text = none)) := by
  refine ⟨fun n => rfl, ?_, ?_, ?_, ?_⟩
  · intro k ht hk hk2
    exact resolve_alias_hit st text k ht hk hk2
  · intro n ht hmiss hkw hn hhit hfirst
    rw [resolve_alias_miss st text ht hmiss,
      resolveTail_dorm st _ n hkw (firstDormDigit_first hn hhit hfirst)]
  · intro n ht hmiss hnd hb
    rw [resolve_alias_miss st text ht hmiss, resolveTail_nodorm st _ hnd]
    simp [resolveStep34, hb]
  · intro ht hmiss hnd hb
    rw [resolve_alias_miss st text ht hmiss, resolveTail_nodorm st _ hnd]
    constructor
    · intro hmu
      simp [resolveStep34, hb, hmu]
    · intro hmu
      simp [resolveStep34, hb, hmu]

/-- C3 (witness): on the sample store, "дотуур 4" goes through the dormitory
strategy with first matching digit 4. -/
theorem c3_witness :
    resolve stS "дотуур 4".toList = get_by_key stS ("num_dorm_".toList ++ ['4']) :=
  (c3_cascade stS "дотуур 4".toList).2.2.1 '4' (by decide) (by decide)
    (by decide) (by decide) (by decide) (by decide)

/-- C4 (counterexample): "14-р дотуур байр" contains a dormitory keyword and
the digit 4, and the num_dorm_4 place is defined in the sample store, yet
resolve returns the num_dorm_1 place — the scan order 1..6 picks digit 1
first — so not every such text resolves to num_dorm_4. -/
theorem c4_counterexample :
    isSub "дотуур".toList (pyLower (pyStrip "14-р дотуур байр".toList)) = true ∧
    (pyLower (pyStrip "14-р дотуур байр".toList)).contains '4' = true ∧
    get_by_key stS "num_dorm_4".toList = some placeDorm4 ∧
    resolve stS "14-р дотуур байр".toList = some placeDorm1 ∧
    placeDorm1 ≠ placeDorm4 := by
  decide

/-- C4 (amended): text containing a dormitory keyword and the digit 4, whose
exact-alias lookup misses and in which none of the digits 1, 2, 3 occur,
resolves to the num_dorm_4 place when that place is defined — in particular
the dormitory strategy fires before the building strategy can see the
text. -/
theorem c4_dorm_before_building (st : LocationStore) (text : Str) (p : Place)
    (ht : pyLower (pyStrip text) ≠ [])
    (hmiss : aliasMissB st (pyLower (pyStrip text)) = true)
    (hkw : hasDormKw (pyLower (pyStrip text)) = true)
    (h4 : dormHit '4' (pyLower (pyStrip text)) = true)
    (h1 : dormHit '1' (pyLower (pyStrip text)) = false)
    (h2 : dormHit '2' (pyLower (pyStrip text)) = false)
    (h3 : dormHit '3' (pyLower (pyStrip text)) = false)
    (hdef : get_by_key st ("num_dorm_".toList ++ ['4']) = some p) :
    resolve st text = some p := by
  have hfirst : ∀ m ∈ dormDigits, m < '4' →
      dormHit m (pyLower (pyStrip text)) = false := by
    intro m hm hlt
    simp only [dormDigits, List.mem_cons, List.not_mem_nil, or_false] at hm
    rcases hm with rfl | rfl | rfl | rfl | rfl | rfl
    · exact h1
    · exact h2
    · exact h3
    · exact absurd hlt (by decide)
    · exact absurd hlt (by decide)
    · exact absurd hlt (by decide)
  rw [resolve_alias_miss st text ht hmiss,
    resolveTail_dorm st _ '4' hkw
      (firstDormDigit_first (by simp [dormDigits]) h4 hfirst), hdef]

/-- C4 (witness): resolve("4-р дотуур байр") on the sample store returns the
num_dorm_4 place. -/
theorem c4_witness : resolve stS "4-р дотуур байр".toList = some placeDorm4 :=
  c4_dorm_before_building stS "4-р дотуур байр".toList placeDorm4 (by decide)
    (by decide) (by decide) (by decide) (by decide) (by decide) (by decide)
    (by decide)

/-- C5 (confirmed): when an earlier entry and a later entry both register the
same normalized alias string a, and no entry after the later one registers a
again, an error-free load leaves the alias table mapping a to the later
entry's key — last entry wins, and nothing but the hypothesis that the load
finished without error is needed (no warning is modelled anywhere). -/
theorem c5_last_wins (ys zs : List YamlVal)
    (e1kvs e2kvs : List (Str × YamlVal)) (a : Str)
    (h1a : YamlVal.mapV e1kvs ∈ ys)
    (h1b : registersB (.mapV e1kvs) a = true)
    (h2 : registersB (.mapV e2kvs) a = true)
    (h3 : ∀ z ∈ zs, registersB z a = false)
    (h4 : (loadData (.mapV [("places".toList,
        .listV (ys ++ .mapV e2kvs :: zs))])).2 = none) :
    dictGet (loadData (.mapV [("places".toList,
        .listV (ys ++ .mapV e2kvs :: zs))])).1.alias_to_key a
      = some (itemKey e2kvs) := by
  have hpv : loadPlacesVal [("places".toList, .listV (ys ++ .mapV e2kvs :: zs))]
      = .listV (ys ++ .mapV e2kvs :: zs) := by
    unfold loadPlacesVal
    rw [show yGet [("places".toList, YamlVal.listV (ys ++ .mapV e2kvs :: zs))]
        "places".toList = some (.listV (ys ++ .mapV e2kvs :: zs)) from by
      simp [yGet]]
    rw [if_pos (by simp [truthy])]
    rfl
  have hld : loadData (.mapV [("places".toList, .listV (ys ++ .mapV e2kvs :: zs))])
      = processItems (ys ++ .mapV e2kvs :: zs) emptyStore := by
    unfold loadData
    rw [if_pos (by simp [truthy])]
    dsimp only
    rw [hpv]
    rfl
  rw [hld] at h4 ⊢
  rcases hys : processItems ys emptyStore with ⟨st1, err1⟩
  cases err1 with
  | some e =>
      rw [processItems_append_err _ hys] at h4
      exact Option.noConfusion h4
  | none =>
      rw [processItems_append_ok _ hys] at h4 ⊢
      cases hstep : stepItem e2kvs st1 with
      | error e =>
          rw [show processItems (YamlVal.mapV e2kvs :: zs) st1 = (st1, some e) from
            by simp [processItems, hstep]] at h4
          exact Option.noConfusion h4
      | ok st2 =>
          rw [show processItems (YamlVal.mapV e2kvs :: zs) st1
              = processItems zs st2 from by simp [processItems, hstep]]
          rw [processItems_preserve h3]
          exact stepItem_registers hstep h2

/-- C5 (witness): in the duplicate-alias configuration the table maps "x" to
the second entry's key. -/
theorem c5_witness :
    dictGet (loadData (.mapV [("places".toList,
        .listV ([YamlVal.mapV dupItem1] ++ .mapV dupItem2 :: []))])).1.alias_to_key
      "x".toList = some (itemKey dupItem2) :=
  c5_last_wins [.mapV dupItem1] [] dupItem1 dupItem2 "x".toList
    (List.mem_singleton.mpr rfl) (by decide) (by decide)
    (fun z hz => absurd hz (List.not_mem_nil z)) (by decide)

/-- C10 (confirmed): after any load, every key stored in the alias table is
carried by some retained place with nonempty key, title and query; hence
whenever the exact-alias lookup of resolve succeeds, resolve returns some
place. -/
theorem c10_alias_table_closed (input : Option YamlVal) :
    (∀ ak ∈ (loadFile input).1.alias_to_key,
        ∃ p ∈ (loadFile input).1.places,
          p.key = ak.2 ∧ p.key ≠ [] ∧ p.title ≠ [] ∧ p.query ≠ []) ∧
    (∀ text k,
        dictGet (loadFile input).1.alias_to_key (pyLower (pyStrip text)) = some k →
        (resolve (loadFile input).1 text).isSome = true) := by
  have hinv := loadFile_inv input
  constructor
  · intro ak hak
    obtain ⟨h1, h2, p, hp, hkey⟩ := hinv.2 ak hak
    have hv := hinv.1 p hp
    exact ⟨p, hp, hkey, hv.1, hv.2.1, hv.2.2.1⟩
  · intro text k hk
    have hmem := dictGet_mem hk
    obtain ⟨h1, h2, p, hp, hkey⟩ := hinv.2 _ hmem
    rw [resolve_alias_hit _ text k h1 hk h2]
    exact get_by_key_isSome ⟨p, hp, hkey⟩

/-- C10 (witness): a successful alias lookup on the sample store yields some
place. -/
theorem c10_witness :
    (resolve (loadFile (some cfgS)).1 " Lib ".toList).isSome = true :=
  (c10_alias_table_closed (some cfgS)).2 " Lib ".toList "num_building_2".toList
    (by decide)
